import Mathlib

/-!
Verification of the PW-Project pricing pipeline (`src/app.py`, with the earlier
variant `src/PW Project/app.py`) against its natural-language specification.

The development shallowly embeds the pandas-based pipeline:

* a `DTable` is a column list plus rows, each row an association list from
  column names to `Cell` values (`num` = numeric, `str` = text, `na` = NaN);
* machine floats are modelled as rationals (`ℚ`); `pd.NA` / absence is `none`
  or `Cell.na`; fallible Python code is modelled with `Except` where the
  source can raise, and raised exceptions are kept distinct from the
  value-returned `(None, message)` error results of `process_data`;
* pandas semantics used by the source are embedded directly: `duplicated` /
  `drop_duplicates(keep="first")`, `merge(how="left")` including the
  `_x`/`_y` suffixing of clashing column labels, `to_numeric(errors="coerce")
  .fillna(0)`, groupby aggregation, and the sorted-unique column index
  produced by `pivot_table`.  Tables with duplicate column labels are outside
  the model (the source never constructs them for the inputs considered).
-/

/-- A spreadsheet cell as seen by pandas: a numeric value (floats are
modelled as rationals), a text value, or NaN/missing. -/
inductive Cell where
  | num (q : ℚ)
  | str (s : String)
  | na
deriving DecidableEq, Repr

/-- A data-frame row: an association list from column labels to cells.
A label absent from the row reads as NaN. -/
abbrev Row := List (String × Cell)

/-- A data frame: the column index plus the rows. -/
structure DTable where
  cols : List String
  rows : List Row
deriving DecidableEq, Repr

/-- Look a label up in a row (`None` when the row has no such entry). -/
def rowGet (r : Row) (c : String) : Option Cell :=
  (r.find? (fun p => decide (p.1 = c))).map (·.2)

/-- Look a label up in a row, reading an absent entry as NaN. -/
def rowCell (r : Row) (c : String) : Cell :=
  (rowGet r c).getD Cell.na

/-- Overwrite (or append) the entry for a label in a row, as a pandas
column assignment does for that row. -/
def rowSet (r : Row) (c : String) (v : Cell) : Row :=
  if r.any (fun p => decide (p.1 = c)) then
    r.map (fun p => if p.1 = c then (p.1, v) else p)
  else r ++ [(c, v)]

/-- `df.drop(columns=cs)` restricted to the labels actually present
(the source always guards its drops with membership checks or
`errors="ignore"`). -/
def dropColumns (t : DTable) (cs : List String) : DTable :=
  ⟨t.cols.filter (fun c => decide (c ∉ cs)),
   t.rows.map (fun r => r.filter (fun p => decide (p.1 ∉ cs)))⟩

/-- `df.rename(columns=m)`: relabel the column index and each row entry. -/
def renameTable (t : DTable) (m : List (String × String)) : DTable :=
  let ren := fun s => (((m.find? (fun p => decide (p.1 = s))).map (·.2)).getD s)
  ⟨t.cols.map ren, t.rows.map (List.map (fun p => (ren p.1, p.2)))⟩

/-- Boolean-mask row filtering (`df[mask]`), keeping original order. -/
def tableFilter (t : DTable) (keep : Row → Bool) : DTable :=
  ⟨t.cols, t.rows.filter keep⟩

/-- Rewrite one column in every row (`df[c] = df[c].apply(f)`-style). -/
def mapColumn (t : DTable) (c : String) (f : Cell → Cell) : DTable :=
  ⟨t.cols, t.rows.map (fun r => rowSet r c (f (rowCell r c)))⟩

/-- Python `str()` of a cell as pandas `astype(str)` renders it: text is kept,
NaN prints as `"nan"`, and an integral float prints as `"<digits>.0"`
(the repr of non-integral floats is approximated by the rational literal;
no theorem below depends on that case). -/
def cellToStr (c : Cell) : String :=
  match c with
  | Cell.str s => s
  | Cell.na => "nan"
  | Cell.num q =>
      if q.den = 1 then
        (if q.num < 0 then "-" else "") ++ toString q.num.natAbs ++ ".0"
      else toString q

/-- Decimal-literal parser backing `pd.to_numeric` on text cells: an optional
minus sign, digits, and at most one decimal point. -/
def parseDecimal? (s : String) : Option ℚ :=
  let (sgn, body) :=
    match s.toList with
    | '-' :: rest => ((-1 : ℚ), rest)
    | l => ((1 : ℚ), l)
  match body.splitOn '.' with
  | [ds] =>
      if ds ≠ [] ∧ ds.all Char.isDigit then
        some (sgn * (ds.foldl (fun n c => n * 10 + (c.toNat - 48)) 0 : ℕ))
      else none
  | [ds, fs] =>
      if (ds ++ fs) ≠ [] ∧ (ds ++ fs).all Char.isDigit then
        some (sgn * ((ds.foldl (fun n c => n * 10 + (c.toNat - 48)) 0 : ℕ) +
          (fs.foldl (fun n c => n * 10 + (c.toNat - 48)) 0 : ℕ) / ((10 : ℚ) ^ fs.length)))
      else none
  | _ => none

/-- `pd.to_numeric(x, errors="coerce").fillna(0)` on one cell: numbers pass
through, parsable text becomes its value, everything else becomes `0`. -/
def pyToNumeric (c : Cell) : ℚ :=
  match c with
  | Cell.num q => q
  | Cell.na => 0
  | Cell.str s => (parseDecimal? s).getD 0

/-- `Series.fillna(0)` on one cell: only NaN is replaced. -/
def fillnaZero (c : Cell) : Cell :=
  match c with
  | Cell.na => Cell.num 0
  | c => c

/-! ## Deduplication engine (`improved_deduplication`, src/app.py lines 93-115) -/

/-- The prioritized column-subset strategies, most specific first
(src/app.py lines 95-110). -/
def dedup_strategies : List (List String) :=
  [["SAP Product ID", "Deal ID", "Deal Class", "Channel", "Purchase Quantity",
    "Price Group", "Start Date", "End Date"],
   ["SAP Product ID", "Deal ID", "Deal Class", "Channel", "Purchase Quantity"],
   ["SAP Product ID", "Price Group", "Deal Class", "Channel"],
   ["SAP Product ID", "Price Group", "Deal Class"],
   ["SAP Product ID", "Price Group"]]

/-- `[col for col in cols if col in df.columns]`. -/
def existingCols (t : DTable) (cols : List String) : List String :=
  cols.filter (fun c => decide (c ∈ t.cols))

/-- The tuple of values a row takes on a column subset; this is what
`df.duplicated(subset=...)` and `drop_duplicates` compare. -/
def projKey (sub : List String) (r : Row) : List (Option Cell) :=
  sub.map (fun c => rowGet r c)

/-- Does the list contain two (positionally distinct) equal elements?
Mirrors `df.duplicated(subset).any()` on the projected keys. -/
def hasDupList : List (List (Option Cell)) → Bool
  | [] => false
  | k :: ks => ks.contains k || hasDupList ks

/-- `df.duplicated(subset=sub).any()`. -/
def hasDup (sub : List String) (rows : List Row) : Bool :=
  hasDupList (rows.map (projKey sub))

/-- Keep-first deduplication kernel: drop any row whose key was already
seen (`drop_duplicates(subset, keep="first")`). -/
def dropDupsAux (sub : List String) (seen : List (List (Option Cell))) :
    List Row → List Row
  | [] => []
  | r :: rs =>
      if projKey sub r ∈ seen then dropDupsAux sub seen rs
      else r :: dropDupsAux sub (projKey sub r :: seen) rs

/-- `df.drop_duplicates(subset=sub, keep="first")` on the rows. -/
def dropDups (sub : List String) (rows : List Row) : List Row :=
  dropDupsAux sub [] rows

/-- One strategy qualifies when its intersection with the present columns has
at least two labels and grouping by it reveals a duplicate row
(the guard on src/app.py line 113). -/
def qualifies (t : DTable) (cols : List String) : Prop :=
  2 ≤ (existingCols t cols).length ∧ hasDup (existingCols t cols) t.rows = true

instance (t : DTable) (cols : List String) : Decidable (qualifies t cols) :=
  inferInstanceAs (Decidable (_ ∧ _))

/-- The strategy loop of `improved_deduplication`: try each strategy in
order, deduplicate on the first that qualifies, otherwise return the
input unchanged. -/
def dedupGo (t : DTable) : List (List String) → DTable
  | [] => t
  | s :: ss =>
      if qualifies t s then ⟨t.cols, dropDups (existingCols t s) t.rows⟩
      else dedupGo t ss

/-- `improved_deduplication` (src/app.py lines 93-115). -/
def improved_deduplication (t : DTable) : DTable :=
  dedupGo t dedup_strategies

/-! ## Derived-metrics calculator (`calculate_gp2_with_validation`,
src/app.py lines 117-163).  Only the four required columns and the two GP2
output columns are carried; each `present` flag records whether the column
existed in the incoming frame (a missing column is created as `0.0`,
src/app.py line 128). -/

/-- Input row for the GP2 calculator: the raw cells of the four required
columns, `none` standing for NaN or a non-numeric value (both of which
`pd.to_numeric(errors="coerce").fillna(0)` turns into `0`). -/
structure GRow where
  price : Option ℚ
  negCost : Option ℚ
  avgCost : Option ℚ
  chargeback : Option ℚ
deriving DecidableEq, Repr

/-- Input frame for the GP2 calculator, with column-presence flags. -/
structure GTable where
  pricePresent : Bool
  negPresent : Bool
  avgPresent : Bool
  cbPresent : Bool
  rows : List GRow
deriving DecidableEq, Repr

/-- Output row: the coerced numeric columns plus the two GP2 columns
(`none` = `pd.NA`, or the column not having been created at all on the
skip path). -/
structure GRowOut where
  price : ℚ
  negCost : ℚ
  avgCost : ℚ
  chargeback : ℚ
  gp2Neg : Option ℚ
  gp2Avg : Option ℚ
deriving DecidableEq, Repr

/-- Column coercion (src/app.py lines 120-128): a present column goes through
`to_numeric(errors="coerce").fillna(0)`, an absent one is set to `0.0`. -/
def coerceVal (present : Bool) (v : Option ℚ) : ℚ :=
  if present then v.getD 0 else 0

/-- `calc_gp2` (src/app.py lines 132-152): with the columns already numeric
the only branch is the zero-price test; a zero price yields `pd.NA`
(and the surrounding try/except makes the computation total). -/
def calc_gp2 (price cost chargeback : ℚ) : Option ℚ :=
  if price ≠ 0 then some ((price - (cost - chargeback)) / price) else none

/-- Coerce the four required columns of one row. -/
def coerceGRow (t : GTable) (r : GRow) : ℚ × ℚ × ℚ × ℚ :=
  (coerceVal t.pricePresent r.price, coerceVal t.negPresent r.negCost,
   coerceVal t.avgPresent r.avgCost, coerceVal t.cbPresent r.chargeback)

/-- `calculate_gp2_with_validation` (src/app.py lines 117-163): coerce the
required columns; if `skip_gp2_if_no_price` is set and every (coerced) price
is zero, return without creating the GP2 columns (modelled as `none`);
otherwise apply `calc_gp2` per row for each cost variant. -/
def calculate_gp2_with_validation (skip : Bool) (t : GTable) : List GRowOut :=
  let cs := t.rows.map (coerceGRow t)
  if skip ∧ cs.all (fun q => decide (q.1 = 0)) then
    cs.map (fun q => ⟨q.1, q.2.1, q.2.2.1, q.2.2.2, none, none⟩)
  else
    cs.map (fun q => ⟨q.1, q.2.1, q.2.2.1, q.2.2.2,
      calc_gp2 q.1 q.2.1 q.2.2.2, calc_gp2 q.1 q.2.2.1 q.2.2.2⟩)

/-! ## Weighted-average allocator (src/app.py lines 601-639).  The source
first coerces `Avg Cost` and `Cases OH` to numerics, then replaces every
row's `Avg Cost` with its price group's case-weighted average (merging the
per-group aggregate back over `Price Group` and assigning it). -/

/-- A row of the allocator input: price group key and the raw cost/cases
cells (`none` = NaN or non-numeric, coerced to `0`). -/
structure WRowRaw where
  priceGroup : String
  avgCost : Option ℚ
  casesOH : Option ℚ
deriving DecidableEq, Repr

/-- A coerced allocator row. -/
structure WRow where
  priceGroup : String
  avgCost : ℚ
  casesOH : ℚ
deriving DecidableEq, Repr

/-- The numeric coercion of src/app.py lines 603-604. -/
def coerceWRow (r : WRowRaw) : WRow :=
  ⟨r.priceGroup, r.avgCost.getD 0, r.casesOH.getD 0⟩

/-- The per-group aggregate (src/app.py lines 608-615): the case-weighted
average cost, falling back to the first row's cost value when the case
total is zero, and to `0.0` for an empty partition. -/
def groupWeightedCost (rows : List WRow) (g : String) : ℚ :=
  let part := rows.filter (fun r => decide (r.priceGroup = g))
  let den := (part.map (fun r => r.casesOH)).sum
  if den ≠ 0 then (part.map (fun r => r.avgCost * r.casesOH)).sum / den
  else
    match part with
    | [] => 0
    | r :: _ => r.avgCost

/-- The whole allocator stage (src/app.py lines 601-633): coerce, compute the
per-group weighted value, and overwrite every row's cost with its group
value. -/
def weighted_avg_stage (raw : List WRowRaw) : List WRow :=
  let rows := raw.map coerceWRow
  rows.map (fun r => ⟨r.priceGroup, groupWeightedCost rows r.priceGroup, r.casesOH⟩)

/-! ## Pivot column ordering (`pivot_key_sort_key`, src/app.py lines
1139-1174).  `pivot_table` produces its column index sorted (pandas sorts
the unique pivot keys lexically); the source then re-sorts those columns
with Python's stable `sorted` under the 4-part composite key. -/

/-- The fixed deal-class enumeration (src/app.py lines 1153-1162). -/
def deal_class_order : List String :=
  ["Level Pricing",
   "EVD – Straight Discount",
   "Close – Straight Discount",
   "Promo – Straight Discount",
   "EVD- Special Price Goods",
   "Promo- Special Price Goods",
   "Inventory Reduction – Straight Discount",
   "Inventory Reduction- Special Price Goods"]

/-- Leading-digits parse of the purchase-quantity part
(`re.match(r"(\d+)", ...)`, src/app.py lines 1169-1170): the numeric prefix,
or `9999` when the string does not start with a digit. -/
def qtyPrefixVal (s : String) : ℕ :=
  let ds := s.toList.takeWhile Char.isDigit
  if ds.isEmpty then 9999
  else ds.foldl (fun n c => n * 10 + (c.toNat - 48)) 0

/-- `pivot_key_sort_key` (src/app.py lines 1139-1173): split on " | ", read a
missing part as "", and rank the four parts (channel, pricing type, deal
class, numeric purchase-quantity prefix); the function is total — no string
input can make it raise. -/
def pivot_key_sort_key (key : String) : ℕ × ℕ × ℕ × ℕ :=
  let parts := key.splitOn " | "
  let channel := parts.getD 0 ""
  let pricing := parts.getD 1 ""
  let dealClass := parts.getD 2 ""
  let pq := parts.getD 3 ""
  let channelVal := if channel = "Retail" then 0 else if channel = "OP" then 1 else 99
  let pricingVal := if pricing = "Level Pricing" then 0
    else if pricing = "Deal Pricing" then 1 else 99
  let dealClassVal := (deal_class_order.indexOf? dealClass).getD 99
  (channelVal, pricingVal, dealClassVal, qtyPrefixVal pq)

/-- Lexicographic order on the 4-part composite keys, matching Python tuple
comparison. -/
def keyTupleLe (x y : ℕ × ℕ × ℕ × ℕ) : Prop :=
  x.1 < y.1 ∨ (x.1 = y.1 ∧ (x.2.1 < y.2.1 ∨ (x.2.1 = y.2.1 ∧
    (x.2.2.1 < y.2.2.1 ∨ (x.2.2.1 = y.2.2.1 ∧ x.2.2.2 ≤ y.2.2.2)))))

instance : DecidableRel keyTupleLe := fun _x _y =>
  inferInstanceAs (Decidable (_ ∨ _))

/-- The sort relation used on pivot columns: compare composite keys. -/
def pivotKeyRel (a b : String) : Prop :=
  keyTupleLe (pivot_key_sort_key a) (pivot_key_sort_key b)

instance : DecidableRel pivotKeyRel := fun _a _b =>
  inferInstanceAs (Decidable (keyTupleLe _ _))

instance : IsTotal String pivotKeyRel :=
  ⟨fun a b => by
    unfold pivotKeyRel keyTupleLe
    omega⟩

instance : IsTrans String pivotKeyRel :=
  ⟨fun a b c hab hbc => by
    unfold pivotKeyRel keyTupleLe at *
    omega⟩

/-- Insert a string into a strictly `<`-sorted duplicate-free list, keeping
it strictly sorted: this builds the sorted unique column index that
`pivot_table` produces from the row pivot keys. -/
def strInsert (a : String) : List String → List String
  | [] => [a]
  | b :: l =>
      if a = b then b :: l
      else if a < b then a :: b :: l
      else b :: strInsert a l

/-- The sorted, duplicate-free list of values of a list of strings:
the column index `pivot_table` derives from the row pivot keys. -/
def uniqueSorted (l : List String) : List String :=
  l.foldr strInsert []

/-- The pivot column order the source emits for a brand: the sorted unique
pivot keys of the rows, re-sorted stably by `pivot_key_sort_key`
(src/app.py line 1174). -/
def pivotColumns (rowKeys : List String) : List String :=
  List.insertionSort pivotKeyRel (uniqueSorted rowKeys)

/-! ## Per-brand pivot fallback (src/app.py lines 1036-1039 and 1315-1329).
The reshape itself (pandas `melt`/`pivot_table` plus the worksheet styling)
is abstracted as an outcome that either produced a pivot table or raised;
the claim quantifies over every possible exception. -/

/-- The four pivot-dimension columns (src/app.py line 1036). -/
def pivot_dimension_cols : List String :=
  ["Channel", "Pricing Type", "Deal Class", "Purchase Quantity"]

/-- The flat display columns used for the fallback sheet
(src/app.py lines 770-790). -/
def display_cols : List String :=
  ["Price Group", "Price Group Description", "Pricing Type", "Deal ID",
   "Deal Class", "Purchase Quantity", "Deal Description", "Start Date",
   "End Date", "List Case", "Discount", "Chargeback", "Negotiated Cost",
   "Avg Cost", "List Bottle", "Case Price", "Bottle Price",
   "GP2 - Negotiated Cost", "GP2 - Avg Cost"]

/-- Column projection `df[cs]`. -/
def projectTable (t : DTable) (cs : List String) : DTable :=
  ⟨cs, t.rows.map (fun r => cs.map (fun c => (c, rowCell r c)))⟩

/-- The flat per-row fallback sheet for a brand
(`brand_df[brand_cols]`, src/app.py lines 1317-1318 and 1325-1326). -/
def flat_fallback (t : DTable) : DTable :=
  projectTable t (display_cols.filter (fun c => decide (c ∈ t.cols)))

/-- Outcome of the reshape attempt for one brand: a pivot table, or an
exception raised somewhere inside the `try` block. -/
inductive ReshapeOutcome where
  | ok (t : DTable)
  | raised (e : String)
deriving DecidableEq, Repr

/-- The sheet written for one brand (src/app.py lines 1039-1329): pivot when
all four dimension columns resolve and the reshape succeeds; the flat
fallback when a dimension column is missing or the reshape raises. -/
def brand_sheet (b : DTable) (r : ReshapeOutcome) : DTable :=
  if (pivot_dimension_cols.filter (fun c => decide (c ∈ b.cols))).length = 4 then
    match r with
    | ReshapeOutcome.ok p => p
    | ReshapeOutcome.raised _ => flat_fallback b
  else flat_fallback b

/-- The per-brand loop (src/app.py lines 1008-1329): each brand contributes
exactly one sheet; the `except` inside the loop body means no brand can
abort the loop. -/
def process_brands (bs : List (DTable × ReshapeOutcome)) : List DTable :=
  bs.map (fun p => brand_sheet p.1 p.2)

/-! ## Supplier/vendor code normalization and the `process_data` core
(src/app.py lines 406-648).  The stages from the merge allow-list check up
to `improved_deduplication` are embedded over `DTable`s; the outcome
distinguishes the value-returned `(filename, None)` / `(None, message)`
results from exceptions that escape `process_data` (whose only top-level
handler is a `finally:` clause, src/app.py lines 1338-1343). -/

/-- Result of one `process_data` invocation: a produced report (`ok` carries
the deterministic `PW_<vendor>_<name>` part of the filename, the timestamp
being elided), a value-returned error message, or an uncaught exception. -/
inductive POutcome where
  | ok (filename : String)
  | err (msg : String)
  | raised (exn : String)
deriving DecidableEq, Repr

/-- Internal failure of a pipeline stage: a value-returned message or a
Python exception. -/
inductive PErr where
  | valErr (msg : String)
  | exn (msg : String)
deriving DecidableEq, Repr

/-- Convert a stage failure to the observable outcome: value errors become
`(None, message)`; exceptions escape `process_data`. -/
def toOutcome : PErr → POutcome
  | PErr.valErr m => POutcome.err m
  | PErr.exn e => POutcome.raised e

/-- Python `str.zfill(6)`. -/
def zfill6 (s : String) : String :=
  if s.length < 6 then String.mk (List.replicate (6 - s.length) '0') ++ s else s

/-- The digit guard of the normalization lambda:
`str(x).replace(".", "").isdigit()` (src/app.py line 443). -/
def supplierDigitCheck (s : String) : Bool :=
  let t := s.toList.filter (fun c => decide (c ≠ '.'))
  !t.isEmpty && t.all Char.isDigit

/-- `int(float(s))` for a nonnegative decimal string: the digits before the
first decimal point (empty reads as zero). -/
def intOfFloatStr (s : String) : ℕ :=
  (s.toList.takeWhile (fun c => decide (c ≠ '.'))).foldl
    (fun n c => n * 10 + (c.toNat - 48)) 0

/-- The supplier-code normalization lambda (src/app.py lines 442-444):
`str(int(float(x))) if pd.notna(x) and str(x).replace(".", "").isdigit()
else "0"`, zero-filled to six digits.  When the digit guard passes but the
string holds more than one decimal point, `float()` raises `ValueError`
— uncaught in `process_data`. -/
def normalizeSupplier (c : Cell) : Except String String :=
  match c with
  | Cell.na => Except.ok (zfill6 "0")
  | c =>
      let s := cellToStr c
      if supplierDigitCheck s then
        if (s.toList.filter (fun ch => decide (ch = '.'))).length ≤ 1 then
          Except.ok (zfill6 (toString (intOfFloatStr s)))
        else Except.error "ValueError: could not convert string to float"
      else Except.ok (zfill6 "0")

/-- Does the normalization of a cell succeed (no exception)? -/
def normOk (c : Cell) : Bool :=
  match normalizeSupplier c with
  | Except.ok _ => true
  | Except.error _ => false

/-- The value the normalization produces on its success path. -/
def normValue (c : Cell) : String :=
  match normalizeSupplier c with
  | Except.ok v => v
  | Except.error _ => ""

/-- The allow-list of ZPURCON columns to merge (src/app.py lines 406-429). -/
def cols_to_merge : List String :=
  ["Supplier", "Price Group #", "Price Group Description", "FOB", "SPA",
   "Miscellaneous", "Land Freight", "Ocean Freight", "Federal Tax",
   "Broker Charge", "Bulk Whiskey Fee", "Duty", "Tariffs Per Case",
   "Consolidate Fee", "Gallonage tax per case pd to Vendor",
   "Gallonage tax per case Pd to State",
   "Gallonage tax Volume based Pd to State", "Total", "Mov Avg 7210",
   "Stock in bottles", "Stock in Cases", "Mrp Controller"]

/-- `existing_cols_to_merge` (src/app.py line 430). -/
def zsel (ZPUR : DTable) : List String :=
  cols_to_merge.filter (fun c => decide (c ∈ ZPUR.cols))

/-- `PB.merge(ZPUR[["Material"] + existing], left_on="SAP Product ID",
right_on="Material", how="left")` (src/app.py lines 433-438): a left join
that keeps every left row (one output row per matching right row, or one
null-extended row when none matches) and suffixes clashing labels with
`_x`/`_y`. -/
def mergeTables (PB ZPUR : DTable) (zs : List String) : DTable :=
  let rcols := "Material" :: zs
  let lname := fun c => if c ∈ rcols then c ++ "_x" else c
  let rname := fun c => if c ∈ PB.cols then c ++ "_y" else c
  ⟨PB.cols.map lname ++ rcols.map rname,
   PB.rows.flatMap (fun pr =>
     let key := rowGet pr "SAP Product ID"
     let ms := ZPUR.rows.filter (fun zr => decide (rowGet zr "Material" = key))
     let prL : Row := pr.map (fun p => (lname p.1, p.2))
     match ms with
     | [] => [prL ++ rcols.map (fun c => (rname c, Cell.na))]
     | _ => ms.map (fun zr => prL ++ rcols.map (fun c => (rname c, rowCell zr c))))⟩

/-- The merged frame after `.drop(columns=["Material"])`. -/
def merged_table (PB ZPUR : DTable) : DTable :=
  dropColumns (mergeTables PB ZPUR (zsel ZPUR)) ["Material"]

/-- The merge stage (src/app.py lines 430-438): error out when the allow-list
is empty; raise when a join key column is absent; otherwise merge and drop
the right key. -/
def stage_merge (PB ZPUR : DTable) : Except PErr DTable :=
  if (zsel ZPUR).isEmpty then
    Except.error (PErr.valErr "No matching columns found for merging data.")
  else if "SAP Product ID" ∉ PB.cols then
    Except.error (PErr.exn "KeyError: SAP Product ID")
  else if "Material" ∉ ZPUR.cols then
    Except.error (PErr.exn "KeyError: Material")
  else if "Material" ∈ (mergeTables PB ZPUR (zsel ZPUR)).cols then
    Except.ok (merged_table PB ZPUR)
  else Except.error (PErr.exn "KeyError: Material")

/-- Normalize the supplier cell of one row, writing the 6-digit code back
into the `Supplier` column (src/app.py lines 442-444). -/
def normalizeRow (r : Row) : Except PErr Row :=
  match normalizeSupplier (rowCell r "Supplier") with
  | Except.ok code => Except.ok (rowSet r "Supplier" (Cell.str code))
  | Except.error e => Except.error (PErr.exn e)

/-- The success-path result of normalizing one row's supplier cell. -/
def normalizeRowOk (r : Row) : Row :=
  rowSet r "Supplier" (Cell.str (normValue (rowCell r "Supplier")))

/-- The rows of the merged table with normalized supplier codes, as computed
on the success path of the normalization. -/
def normalizedRows (t : DTable) : List Row :=
  t.rows.map normalizeRowOk

/-- The rows kept by the vendor filter
(`PB_merged[PB_merged["Supplier"] == vendor_id]`, src/app.py line 445). -/
def vendorRows (t : DTable) (v : String) : List Row :=
  (normalizedRows t).filter (fun r => decide (rowGet r "Supplier" = some (Cell.str v)))

/-- The vendor-filter stage (src/app.py lines 440-448): check the `Supplier`
column, normalize every code (which can raise), filter to the requested
vendor, and error out when no row remains. -/
def stage_vendor (t : DTable) (v : String) : Except PErr DTable :=
  if "Supplier" ∉ t.cols then
    Except.error (PErr.valErr "Supplier column missing in merged data.")
  else
    match t.rows.mapM normalizeRow with
    | Except.error e => Except.error e
    | Except.ok rows =>
        let keep := rows.filter (fun r => decide (rowGet r "Supplier" = some (Cell.str v)))
        if keep.isEmpty then
          Except.error (PErr.valErr ("Vendor ID " ++ v ++ " not found."))
        else Except.ok ⟨t.cols, keep⟩

/-- `re.sub(r"[^\w-]", "", name).replace(" ", "_").strip("_") or "NoName"`
(src/app.py line 454); spaces are already removed by the substitution, so
the replace is a no-op. -/
def sanitizeName (s : String) : String :=
  let l := s.toList.filter (fun c => c.isAlphanum || c = '_' || c = '-')
  let l := ((l.dropWhile (fun c => decide (c = '_'))).reverse.dropWhile
    (fun c => decide (c = '_'))).reverse
  if l.isEmpty then "NoName" else String.mk l

/-- Vendor display name (src/app.py lines 449-453): the first non-null
`Vendor` cell, else `Vendor_<id>`. -/
def vendor_name (t : DTable) (v : String) : String :=
  if "Vendor" ∈ t.cols then
    match t.rows.filter (fun r =>
        decide (rowGet r "Vendor" ≠ none ∧ rowGet r "Vendor" ≠ some Cell.na)) with
    | [] => "Vendor_" ++ v
    | r :: _ => cellToStr (rowCell r "Vendor")
  else "Vendor_" ++ v

/-- Columns dropped from the per-vendor frame to form `PW`
(src/app.py lines 511-541). -/
def cols_to_drop_PW : List String :=
  ["Vendor", "Group Name", "Size", "Product Name", "SAP Product ID",
   "UPC Bottle", "UPC Cases", "UPC Sleeve", "Business Manager Detail",
   "Chain Name", "Supplier", "Price Group #", "Price Group Description_y",
   "FOB", "SPA", "Miscellaneous", "Land Freight", "Ocean Freight",
   "Federal Tax", "Broker Charge", "Bulk Whiskey Fee", "Duty",
   "Tariffs Per Case", "Consolidate Fee",
   "Gallonage tax per case pd to Vendor",
   "Gallonage tax per case Pd to State",
   "Gallonage tax Volume based Pd to State", "Stock in bottles",
   "Mrp Controller"]

/-- The column renames applied to `PW` (src/app.py lines 582-591). -/
def pw_renames : List (String × String) :=
  [("Price Group Description_x", "Price Group Description"),
   ("Trade Channel ID", "Channel"),
   ("List Price", "List Case"),
   ("Total", "Negotiated Cost"),
   ("Mov Avg 7210", "Avg Cost"),
   ("Stock in Cases", "Cases OH")]

/-- Keep a row after `dropna(subset=["Price Group"])`. -/
def pgKeep (r : Row) : Bool :=
  decide (rowGet r "Price Group" ≠ none ∧ rowGet r "Price Group" ≠ some Cell.na)

/-- The `Pricing Type` filter (src/app.py lines 546-551): non-null, nonempty
after strip, and not an excluded value. -/
def ptKeep (r : Row) : Bool :=
  let c := rowCell r "Pricing Type"
  decide (c ≠ Cell.na) && decide ((cellToStr c).trim ≠ "") &&
    !([Cell.str "Volume Incentives", Cell.str "Chain Pricing"].contains c)

/-- The excluded trade channels (src/app.py lines 553-571). -/
def excluded_channels : List String :=
  ["C2", "C3", "C4", "C5", "C6", "C7", "C8", "C9", "C10", "C11", "C12",
   "C13", "C14", "C15", "C17", "C18", "C19"]

/-- The `Trade Channel ID` filter (src/app.py line 572). -/
def tcKeep (r : Row) : Bool :=
  !((excluded_channels.map Cell.str).contains (rowCell r "Trade Channel ID"))

/-- The `Purchase Quantity` filter (src/app.py lines 574-580): the stripped
string form must be nonempty and not one of `"0"`, `"0 CSE"`, `"0 EA"`. -/
def pqKeep (r : Row) : Bool :=
  let s := (cellToStr (rowCell r "Purchase Quantity")).trim
  !(["0", "0 CSE", "0 EA"].contains s) && decide (s ≠ "")

/-- The `Channel` cleanup (src/app.py lines 592-593): strip the string form
and map `C1` to `Retail`, `C16`, `""` and `"nan"` to `OP`. -/
def channelClean (c : Cell) : Cell :=
  let s := (cellToStr c).trim
  if s = "C1" then Cell.str "Retail"
  else if s = "C16" ∨ s = "" ∨ s = "nan" then Cell.str "OP"
  else Cell.str s

/-- The per-group weighted cost over `DTable` rows (src/app.py lines
607-623), keyed by the raw `Price Group` cell; the cells have already been
coerced to numerics. -/
def groupAvgCell (rows : List Row) (g : Option Cell) : ℚ :=
  let part := rows.filter (fun r => decide (rowGet r "Price Group" = g))
  let den := (part.map (fun r => pyToNumeric (rowCell r "Cases OH"))).sum
  if den ≠ 0 then
    (part.map (fun r =>
      pyToNumeric (rowCell r "Avg Cost") * pyToNumeric (rowCell r "Cases OH"))).sum / den
  else
    match part with
    | [] => 0
    | r :: _ => pyToNumeric (rowCell r "Avg Cost")

/-- The weighted-average block of `process_data` (src/app.py lines 601-639):
with both `Cases OH` and `Avg Cost` present, coerce them and overwrite every
row's `Avg Cost` with its group value; with only `Avg Cost` present,
`fillna(0)` it; with `Avg Cost` absent, `PW["Avg Cost"]` raises. -/
def stage_weighted (t : DTable) : Except PErr DTable :=
  if "Cases OH" ∈ t.cols ∧ "Avg Cost" ∈ t.cols then
    let tc := mapColumn (mapColumn t "Avg Cost" (fun c => Cell.num (pyToNumeric c)))
      "Cases OH" (fun c => Cell.num (pyToNumeric c))
    Except.ok ⟨tc.cols, tc.rows.map (fun r =>
      rowSet r "Avg Cost" (Cell.num (groupAvgCell tc.rows (rowGet r "Price Group"))))⟩
  else if "Avg Cost" ∈ t.cols then
    Except.ok (mapColumn t "Avg Cost" fillnaZero)
  else Except.error (PErr.exn "KeyError: Avg Cost")

/-- The `COMBO` filter (src/app.py line 640): drop rows whose description
starts with `COMBO` (`str.startswith` with `na=False`). -/
def comboKeep (r : Row) : Bool :=
  match rowCell r "Price Group Description" with
  | Cell.str s => !s.startsWith "COMBO"
  | _ => true

/-- The `PW` transformation (src/app.py lines 511-644): column drops, the
four row filters, renames, channel cleanup, weighted-average allocation, the
COMBO filter and deduplication.  Each unguarded column access of the source
becomes an explicit `KeyError` when the column is absent. -/
def stage_pw (t0 : DTable) : Except PErr DTable :=
  let t1 := dropColumns t0 cols_to_drop_PW
  if "Price Group" ∉ t1.cols then Except.error (PErr.exn "KeyError: Price Group") else
  let t2 := tableFilter t1 pgKeep
  if "Pricing Type" ∉ t2.cols then Except.error (PErr.exn "KeyError: Pricing Type") else
  let t3 := tableFilter t2 ptKeep
  if "Trade Channel ID" ∉ t3.cols then
    Except.error (PErr.exn "KeyError: Trade Channel ID") else
  let t4 := tableFilter t3 tcKeep
  if "Purchase Quantity" ∉ t4.cols then
    Except.error (PErr.exn "KeyError: Purchase Quantity") else
  let t5 := tableFilter t4 pqKeep
  let t6 := renameTable t5 pw_renames
  let t7 := mapColumn t6 "Channel" channelClean
  match stage_weighted t7 with
  | Except.error e => Except.error e
  | Except.ok t8 =>
      if "Price Group Description" ∉ t8.cols then
        Except.error (PErr.exn "KeyError: Price Group Description")
      else Except.ok (improved_deduplication (tableFilter t8 comboKeep))

/-- The `process_data` core (src/app.py lines 406-648): merge, vendor filter,
`PW` transformation and deduplication, ending in the deterministic part of
the output filename.  Date parsing, file I/O and the worksheet rendering are
the external collaborators of the spec and sit outside this model. -/
def process_core (PB ZPUR : DTable) (v : String) : POutcome :=
  match stage_merge PB ZPUR with
  | Except.error e => toOutcome e
  | Except.ok merged =>
      match stage_vendor merged v with
      | Except.error e => toOutcome e
      | Except.ok PBin =>
          match stage_pw PBin with
          | Except.error e => toOutcome e
          | Except.ok _ =>
              POutcome.ok ("PW_" ++ v ++ "_" ++ sanitizeName (vendor_name PBin v))

/-! ## Chain-pricing failure isolation (src/app.py lines 169-188, 264-405
and 957-997). -/

/-- The fixed 14-column schema of the chain-pricing sheet
(src/app.py lines 170-187). -/
def chain_display_cols : List String :=
  ["Vendor Id", "Price Group", "Price Group Description", "Chain Name",
   "Start Date", "End Date", "List Price", "Net Price", "Bottle Price",
   "Chargeback", "Negotiated Cost", "Avg Cost", "GP2 - Negotiated Cost",
   "GP2 - Avg Cost"]

/-- The empty chain-pricing table substituted on failure
(src/app.py lines 387-404). -/
def empty_chain_table : DTable :=
  ⟨chain_display_cols, []⟩

/-- Outcome of the chain-pricing section (src/app.py lines 264-405): a chain
table, one of the value-returned early errors inside the block (e.g. a
missing `Net Price` column), or an exception raised anywhere in the block. -/
inductive ChainOutcome where
  | ok (t : DTable)
  | earlyErr (msg : String)
  | raised (e : String)
deriving DecidableEq, Repr

/-- How `process_data` combines the chain-pricing section with the rest of
the pipeline: a value-returned early error aborts with that message, while a
raised exception is caught by the `except` (src/app.py lines 385-405), the
empty 14-column table is substituted, and the core outcome is reported
unchanged.  The second component is the table written to the
`"Chain Pricing"` sheet (src/app.py line 957). -/
def process_with_chain (c : ChainOutcome) (core : POutcome) : POutcome × Option DTable :=
  match c with
  | ChainOutcome.earlyErr m => (POutcome.err m, none)
  | ChainOutcome.ok t => (core, some t)
  | ChainOutcome.raised _ => (core, some empty_chain_table)

/-! ## Well-formedness predicates and concrete witness data -/

/-- Column-presence and normalization conditions under which no exception in
the modelled scope of `process_data` can fire: the join keys resolve, the
four `PW` filter columns exist in the price book, the cost catalog supplies
the average-cost and description columns without label clashes, and every
supplier cell normalizes without raising. -/
def required_input_ok (PB ZPUR : DTable) : Prop :=
  "SAP Product ID" ∈ PB.cols ∧ "Material" ∉ PB.cols ∧ "Material" ∈ ZPUR.cols ∧
  "Price Group" ∈ PB.cols ∧ "Pricing Type" ∈ PB.cols ∧
  "Trade Channel ID" ∈ PB.cols ∧ "Purchase Quantity" ∈ PB.cols ∧
  "Mov Avg 7210" ∈ ZPUR.cols ∧ "Mov Avg 7210" ∉ PB.cols ∧
  "Price Group Description" ∈ ZPUR.cols ∧ "Price Group Description" ∉ PB.cols ∧
  (∀ r ∈ (merged_table PB ZPUR).rows, normOk (rowCell r "Supplier") = true)

instance (PB ZPUR : DTable) : Decidable (required_input_ok PB ZPUR) :=
  inferInstanceAs (Decidable (_ ∧ _))

/-- The conditions under which the merge and vendor-filter stages are the
only possible sources of failure: join keys resolve, the merged frame has a
`Supplier` column, and every supplier cell normalizes. -/
def merge_keys_ok (PB ZPUR : DTable) : Prop :=
  "SAP Product ID" ∈ PB.cols ∧ "Material" ∉ PB.cols ∧ "Material" ∈ ZPUR.cols ∧
  "Supplier" ∈ (merged_table PB ZPUR).cols ∧
  (∀ r ∈ (merged_table PB ZPUR).rows, normOk (rowCell r "Supplier") = true)

instance (PB ZPUR : DTable) : Decidable (merge_keys_ok PB ZPUR) :=
  inferInstanceAs (Decidable (_ ∧ _))

/-- A price book with a single product row and none of the `PW` columns: the
pipeline reaches `PW.dropna(subset=["Price Group"])` and raises. -/
def PBmissing : DTable :=
  ⟨["SAP Product ID"], [[("SAP Product ID", Cell.num 1)]]⟩

/-- A minimal cost catalog carrying the join key and a supplier code. -/
def ZPURmini : DTable :=
  ⟨["Material", "Supplier"],
   [[("Material", Cell.num 1), ("Supplier", Cell.str "300001.0")]]⟩

/-- A full-featured single-row price book satisfying `required_input_ok`
together with `ZPURfull`. -/
def PBfull : DTable :=
  ⟨["SAP Product ID", "Price Group", "Pricing Type", "Trade Channel ID",
    "Purchase Quantity"],
   [[("SAP Product ID", Cell.num 1), ("Price Group", Cell.str "G1"),
     ("Pricing Type", Cell.str "Level Pricing"),
     ("Trade Channel ID", Cell.str "C1"),
     ("Purchase Quantity", Cell.str "1 CSE")]]⟩

/-- A cost catalog supplying supplier, average cost and description for
`PBfull`. -/
def ZPURfull : DTable :=
  ⟨["Material", "Supplier", "Mov Avg 7210", "Price Group Description"],
   [[("Material", Cell.num 1), ("Supplier", Cell.str "300001.0"),
     ("Mov Avg 7210", Cell.num 12), ("Price Group Description", Cell.str "Desc")]]⟩

/-- A row carrying all eight columns of the most specific deduplication
strategy. -/
def dupRowA : Row :=
  [("SAP Product ID", Cell.num 1), ("Deal ID", Cell.num 1),
   ("Deal Class", Cell.num 1), ("Channel", Cell.num 1),
   ("Purchase Quantity", Cell.num 1), ("Price Group", Cell.num 1),
   ("Start Date", Cell.num 1), ("End Date", Cell.num 1)]

/-- Like `dupRowA` but with a different start date, so the two rows agree on
strategy 2 (no dates) but not on strategy 1. -/
def dupRowB : Row :=
  [("SAP Product ID", Cell.num 1), ("Deal ID", Cell.num 1),
   ("Deal Class", Cell.num 1), ("Channel", Cell.num 1),
   ("Purchase Quantity", Cell.num 1), ("Price Group", Cell.num 1),
   ("Start Date", Cell.num 2), ("End Date", Cell.num 1)]

/-- A table on which `improved_deduplication` is not idempotent: the first
pass removes the exact duplicate under strategy 1, and only the second pass
sees the strategy-2 duplicate that survives it. -/
def dedupCx : DTable :=
  ⟨["SAP Product ID", "Deal ID", "Deal Class", "Channel",
    "Purchase Quantity", "Price Group", "Start Date", "End Date"],
   [dupRowA, dupRowA, dupRowB]⟩

/-- A two-column table with an exact duplicate pair, qualifying the most
specific strategy immediately. -/
def dedupW : DTable :=
  ⟨["SAP Product ID", "Price Group"],
   [[("SAP Product ID", Cell.num 1), ("Price Group", Cell.num 2)],
    [("SAP Product ID", Cell.num 1), ("Price Group", Cell.num 2)]]⟩

/-- GP2 witness frame: one priced row and one zero-priced row. -/
def gp2W : GTable :=
  ⟨true, true, true, true,
   [⟨some 100, some 80, some 60, some 5⟩, ⟨some 0, some 1, some 2, some 3⟩]⟩

/-- Weighted-average witness input: cases `[10, 20]`, costs `[5, 8]`. -/
def weightedW : List WRowRaw :=
  [⟨"G", some 5, some 10⟩, ⟨"G", some 8, some 20⟩]

/-! # Theorems -/

/-! ## Deduplication: strategy selection (C3) and idempotence (C4) -/

theorem dropDupsAux_sublist (sub : List String) :
    ∀ (seen : List (List (Option Cell))) (rows : List Row),
      (dropDupsAux sub seen rows).Sublist rows := by
  intro seen rows
  induction rows generalizing seen with
  | nil => simp [dropDupsAux]
  | cons r rs ih =>
      unfold dropDupsAux
      split
      · exact (ih seen).trans (List.sublist_cons_self r rs)
      · exact (ih _).cons₂ r

theorem dropDups_sublist (sub : List String) (rows : List Row) :
    (dropDups sub rows).Sublist rows :=
  dropDupsAux_sublist sub [] rows

theorem dedupGo_rows_sublist (t : DTable) :
    ∀ L : List (List String), (dedupGo t L).rows.Sublist t.rows := by
  intro L
  induction L with
  | nil => exact List.Sublist.refl _
  | cons s ss ih =>
      unfold dedupGo
      split
      · exact dropDups_sublist _ _
      · exact ih

theorem dedupGo_of_no_qualify (t : DTable) :
    ∀ L : List (List String), (∀ s ∈ L, ¬ qualifies t s) → dedupGo t L = t := by
  intro L h
  induction L with
  | nil => rfl
  | cons s ss ih =>
      unfold dedupGo
      rw [if_neg (h s (List.mem_cons_self s ss))]
      exact ih (fun x hx => h x (List.mem_cons_of_mem s hx))

theorem dedupGo_first_qualifying (t : DTable) :
    ∀ (L : List (List String)) (i : ℕ) (hi : i < L.length),
      (∀ s ∈ L.take i, ¬ qualifies t s) → qualifies t (L.get ⟨i, hi⟩) →
      dedupGo t L = ⟨t.cols, dropDups (existingCols t (L.get ⟨i, hi⟩)) t.rows⟩ := by
  intro L
  induction L with
  | nil => intro i hi; exact absurd hi (Nat.not_lt_zero i)
  | cons s ss ih =>
      intro i hi hpre hq
      cases i with
      | zero =>
          have hq0 : qualifies t s := hq
          unfold dedupGo
          rw [if_pos hq0]
          rfl
      | succ j =>
          have hs : ¬ qualifies t s := hpre s (by simp [List.take_succ_cons])
          simp only [List.get_cons_succ] at hq ⊢
          unfold dedupGo
          rw [if_neg hs]
          exact ih j (Nat.lt_of_succ_lt_succ hi)
            (fun x hx => hpre x (by simpa [List.take_succ_cons] using Or.inr hx)) hq

/-- C3.  `improved_deduplication` applies exactly the first strategy in the
priority order whose intersection with the present columns has at least two
labels and under which a duplicate exists, deduplicating with keep-first
semantics stably on the original row order (the result is a sublist of the
input); when later strategies also qualify they are not consulted, and when
no strategy qualifies the input is returned unchanged. -/
theorem dedup_first_qualifying_strategy (t : DTable) :
    (∀ (i : ℕ) (hi : i < dedup_strategies.length),
      (∀ s ∈ dedup_strategies.take i, ¬ qualifies t s) →
      qualifies t (dedup_strategies.get ⟨i, hi⟩) →
      improved_deduplication t =
        ⟨t.cols, dropDups (existingCols t (dedup_strategies.get ⟨i, hi⟩)) t.rows⟩ ∧
      (improved_deduplication t).rows.Sublist t.rows) ∧
    ((∀ s ∈ dedup_strategies, ¬ qualifies t s) → improved_deduplication t = t) := by
  constructor
  · intro i hi hpre hq
    exact ⟨dedupGo_first_qualifying t dedup_strategies i hi hpre hq,
      dedupGo_rows_sublist t dedup_strategies⟩
  · intro h
    exact dedupGo_of_no_qualify t dedup_strategies h

/-- Witness for C3: on a two-column table with an exact duplicate pair the
most specific strategy (index 0) qualifies and the duplicate row is
dropped. -/
theorem dedup_first_qualifying_strategy_witness :
    improved_deduplication dedupW =
      ⟨dedupW.cols,
       dropDups (existingCols dedupW (dedup_strategies.get ⟨0, by decide⟩))
         dedupW.rows⟩ :=
  ((dedup_first_qualifying_strategy dedupW).1 0 (by decide)
    (by intro s hs; simp [List.take] at hs) (by decide)).1

/-- C4 (amended).  Applying `improved_deduplication` twice never yields more
rows than applying it once: the second pass output is a sublist of the first
pass output.  (Exact idempotence fails, see the counterexample.) -/
theorem dedup_twice_row_count_le (t : DTable) :
    (improved_deduplication (improved_deduplication t)).rows.length ≤
      (improved_deduplication t).rows.length :=
  (dedupGo_rows_sublist (improved_deduplication t) dedup_strategies).length_le

/-- Counterexample to C4 as stated: on `dedupCx` the first pass removes one
exact duplicate (3 rows to 2) and a second pass removes a further row that
duplicates under the second strategy (2 rows to 1), so the row counts
differ. -/
theorem dedup_not_idempotent_counterexample :
    (improved_deduplication (improved_deduplication dedupCx)).rows.length ≠
      (improved_deduplication dedupCx).rows.length := by
  decide

/-! ## Derived metrics: GP2 per-row specification (C1) -/

/-- C1.  For every row produced by `calculate_gp2_with_validation`, each GP2
variant equals `(price - (cost - chargeback)) / price` when the (coerced)
price is nonzero and is the missing sentinel `none` when the price is zero
— never `some 0` from the zero-price branch and never an exception, the
function being total.  On the skip path (all prices zero) the GP2 columns
are not created, which the model reads as the same missing sentinel. -/
theorem gp2_per_row_spec (skip : Bool) (t : GTable) (r : GRowOut)
    (hr : r ∈ calculate_gp2_with_validation skip t) :
    (r.price = 0 → r.gp2Neg = none ∧ r.gp2Avg = none) ∧
    (r.price ≠ 0 →
      r.gp2Neg = some ((r.price - (r.negCost - r.chargeback)) / r.price) ∧
      r.gp2Avg = some ((r.price - (r.avgCost - r.chargeback)) / r.price)) := by
  unfold calculate_gp2_with_validation at hr
  by_cases hs : skip = true ∧
      (t.rows.map (coerceGRow t)).all (fun q => decide (q.1 = 0)) = true
  · rw [if_pos (by simpa using hs)] at hr
    obtain ⟨q, hq, rfl⟩ := List.mem_map.mp hr
    refine ⟨fun _ => ⟨rfl, rfl⟩, fun hne => absurd ?_ hne⟩
    have := List.all_eq_true.mp hs.2 q hq
    simpa using this
  · rw [if_neg (by simpa using hs)] at hr
    obtain ⟨q, _, rfl⟩ := List.mem_map.mp hr
    constructor
    · intro h0
      simp only at h0
      constructor <;> simp [calc_gp2, h0]
    · intro hne
      simp only at hne
      constructor <;> simp [calc_gp2, hne]

/-- Witness for C1: on `gp2W` (price 100, negotiated cost 80, average cost
60, chargeback 5) the first output row carries
GP2 = `(100 - (80 - 5)) / 100` for the negotiated variant and
`(100 - (60 - 5)) / 100` for the average variant. -/
theorem gp2_per_row_spec_witness :
    (⟨100, 80, 60, 5, calc_gp2 100 80 5, calc_gp2 100 60 5⟩ : GRowOut).gp2Neg =
      some ((100 - (80 - 5)) / 100) ∧
    (⟨100, 80, 60, 5, calc_gp2 100 80 5, calc_gp2 100 60 5⟩ : GRowOut).gp2Avg =
      some ((100 - (60 - 5)) / 100) :=
  (gp2_per_row_spec false gp2W
    ⟨100, 80, 60, 5, calc_gp2 100 80 5, calc_gp2 100 60 5⟩
    (List.mem_cons_self _ _)).2 (by norm_num)

/-! ## Weighted-average allocator (C2) -/

/-- C2.  `weighted_avg_stage` replaces every row's cost with the single
group-level value of its price-group partition: the case-weighted average
`Σ cost·cases / Σ cases` when the case total is nonzero, the first partition
row's cost value when the case total is zero, and `0` for an empty
partition; in particular all output rows of one partition carry the same
value. -/
theorem weighted_avg_replaces_costs (raw : List WRowRaw) (r : WRow)
    (hr : r ∈ weighted_avg_stage raw) :
    ((((raw.map coerceWRow).filter
        (fun x => decide (x.priceGroup = r.priceGroup))).map
          (fun x => x.casesOH)).sum ≠ 0 →
      r.avgCost =
        (((raw.map coerceWRow).filter
            (fun x => decide (x.priceGroup = r.priceGroup))).map
              (fun x => x.avgCost * x.casesOH)).sum /
        (((raw.map coerceWRow).filter
            (fun x => decide (x.priceGroup = r.priceGroup))).map
              (fun x => x.casesOH)).sum) ∧
    ((((raw.map coerceWRow).filter
        (fun x => decide (x.priceGroup = r.priceGroup))).map
          (fun x => x.casesOH)).sum = 0 →
      r.avgCost =
        ((((raw.map coerceWRow).filter
            (fun x => decide (x.priceGroup = r.priceGroup))).head?).map
              (fun x => x.avgCost)).getD 0) ∧
    (∀ r2 ∈ weighted_avg_stage raw,
      r2.priceGroup = r.priceGroup → r2.avgCost = r.avgCost) := by
  unfold weighted_avg_stage at hr
  obtain ⟨x, _, rfl⟩ := List.mem_map.mp hr
  refine ⟨?_, ?_, ?_⟩
  · intro hden
    simp only
    unfold groupWeightedCost
    rw [if_pos (by simpa using hden)]
  · intro hden
    simp only
    unfold groupWeightedCost
    rw [if_neg (by simpa using hden)]
    cases h : (raw.map coerceWRow).filter
        (fun y => decide (y.priceGroup = x.priceGroup)) with
    | nil => simp [h]
    | cons a l => simp [h]
  · intro r2 h2 hg
    unfold weighted_avg_stage at h2
    obtain ⟨y, _, rfl⟩ := List.mem_map.mp h2
    simp only at hg ⊢
    rw [hg]

/-- Witness for C2: for one price group with cases `[10, 20]` and costs
`[5, 8]`, the group case total `10 + 20` is nonzero and the first output
row receives the weighted value `(5*10 + 8*20) / (10 + 20)`, which is `7`. -/
theorem weighted_avg_replaces_costs_witness :
    (⟨"G", groupWeightedCost (weightedW.map coerceWRow) "G", 10⟩ : WRow).avgCost =
      (((weightedW.map coerceWRow).filter
          (fun x => decide (x.priceGroup = "G"))).map
            (fun x => x.avgCost * x.casesOH)).sum /
      (((weightedW.map coerceWRow).filter
          (fun x => decide (x.priceGroup = "G"))).map
            (fun x => x.casesOH)).sum ∧
    (⟨"G", groupWeightedCost (weightedW.map coerceWRow) "G", 10⟩ : WRow).avgCost = 7 := by
  have h := (weighted_avg_replaces_costs weightedW
    ⟨"G", groupWeightedCost (weightedW.map coerceWRow) "G", 10⟩
    (List.mem_cons_self _ _)).1 (by norm_num [weightedW, coerceWRow])
  refine ⟨h, ?_⟩
  rw [h]
  norm_num [weightedW, coerceWRow]

/-! ## Pivot column ordering (C5) -/

theorem mem_strInsert (a x : String) :
    ∀ l : List String, (x ∈ strInsert a l ↔ x = a ∨ x ∈ l) := by
  intro l
  induction l with
  | nil => simp [strInsert]
  | cons b t ih =>
      unfold strInsert
      by_cases hab : a = b
      · subst hab
        simp only [if_pos rfl]
        constructor
        · intro h; exact Or.inr h
        · intro h
          rcases h with h | h
          · subst h; exact List.mem_cons_self _ _
          · exact h
      · rw [if_neg hab]
        by_cases hlt : a < b
        · rw [if_pos hlt]
          simp only [List.mem_cons]
        · rw [if_neg hlt]
          simp only [List.mem_cons, ih]
          tauto

theorem sorted_strInsert (a : String) :
    ∀ l : List String, l.Sorted (· < ·) → (strInsert a l).Sorted (· < ·) := by
  intro l
  induction l with
  | nil => intro; simp [strInsert]
  | cons b t ih =>
      intro hs
      rw [List.sorted_cons] at hs
      unfold strInsert
      by_cases hab : a = b
      · rw [if_pos hab]
        exact List.sorted_cons.mpr hs
      · rw [if_neg hab]
        by_cases hlt : a < b
        · rw [if_pos hlt]
          refine List.sorted_cons.mpr ⟨?_, List.sorted_cons.mpr hs⟩
          intro x hx
          rcases List.mem_cons.mp hx with rfl | hx
          · exact hlt
          · exact lt_trans hlt (hs.1 x hx)
        · rw [if_neg hlt]
          have hba : b < a := by
            rcases lt_trichotomy a b with h | h | h
            · exact absurd h hlt
            · exact absurd h hab
            · exact h
          refine List.sorted_cons.mpr ⟨?_, ih hs.2⟩
          intro x hx
          rcases (mem_strInsert a x t).mp hx with rfl | hx
          · exact hba
          · exact hs.1 x hx

theorem sorted_uniqueSorted (l : List String) :
    (uniqueSorted l).Sorted (· < ·) := by
  induction l with
  | nil => simp [uniqueSorted]
  | cons a t ih => exact sorted_strInsert a _ ih

theorem mem_uniqueSorted (x : String) :
    ∀ l : List String, (x ∈ uniqueSorted l ↔ x ∈ l) := by
  intro l
  induction l with
  | nil => simp [uniqueSorted]
  | cons a t ih =>
      show x ∈ strInsert a (uniqueSorted t) ↔ _
      rw [mem_strInsert, ih, List.mem_cons]

theorem strictSorted_eq_of_mem_iff :
    ∀ l₁ l₂ : List String, l₁.Sorted (· < ·) → l₂.Sorted (· < ·) →
      (∀ x, x ∈ l₁ ↔ x ∈ l₂) → l₁ = l₂ := by
  intro l₁
  induction l₁ with
  | nil =>
      intro l₂ _ _ hm
      cases l₂ with
      | nil => rfl
      | cons b t => exact absurd ((hm b).mpr (List.mem_cons_self b t)) (by simp)
  | cons a t₁ ih =>
      intro l₂ hs₁ hs₂ hm
      cases l₂ with
      | nil => exact absurd ((hm a).mp (List.mem_cons_self a t₁)) (by simp)
      | cons b t₂ =>
          rw [List.sorted_cons] at hs₁ hs₂
          have hab : a = b := by
            rcases List.mem_cons.mp ((hm a).mp (List.mem_cons_self a t₁)) with h | h
            · exact h
            · rcases List.mem_cons.mp ((hm b).mpr (List.mem_cons_self b t₂)) with h2 | h2
              · exact h2.symm
              · exact absurd (lt_trans (hs₂.1 a h) (hs₁.1 b h2)) (lt_irrefl b)
          subst hab
          have hteq : t₁ = t₂ := by
            refine ih t₂ hs₁.2 hs₂.2 (fun x => ⟨fun hx => ?_, fun hx => ?_⟩)
            · rcases List.mem_cons.mp ((hm x).mp (List.mem_cons_of_mem a hx)) with h | h
              · exact absurd (h ▸ hs₁.1 x hx) (lt_irrefl x)
              · exact h
            · rcases List.mem_cons.mp ((hm x).mpr (List.mem_cons_of_mem a hx)) with h | h
              · exact absurd (h ▸ hs₂.1 x hx) (lt_irrefl x)
              · exact h
          rw [hteq]

/-- C5.  The pivot column order is deterministic and independent of the
input row order: permuting the row pivot keys leaves `pivotColumns`
unchanged, and the emitted columns are sorted under the 4-part composite
key of `pivot_key_sort_key` (channel rank, pricing-type rank, deal-class
rank, numeric purchase-quantity prefix — each totally defined, so the sort
key never raises). -/
theorem pivot_columns_deterministic :
    (∀ l₁ l₂ : List String, l₁.Perm l₂ → pivotColumns l₁ = pivotColumns l₂) ∧
    (∀ l : List String, (pivotColumns l).Sorted pivotKeyRel) := by
  constructor
  · intro l₁ l₂ hp
    unfold pivotColumns
    have : uniqueSorted l₁ = uniqueSorted l₂ :=
      strictSorted_eq_of_mem_iff _ _ (sorted_uniqueSorted l₁) (sorted_uniqueSorted l₂)
        (fun x => by rw [mem_uniqueSorted, mem_uniqueSorted, hp.mem_iff])
    rw [this]
  · intro l
    exact List.sorted_insertionSort pivotKeyRel (uniqueSorted l)

/-- Witness for C5: swapping two concrete pivot keys does not change the
emitted column order. -/
theorem pivot_columns_deterministic_witness :
    pivotColumns ["OP | Deal Pricing | Level Pricing | 1 CSE",
      "Retail | Level Pricing | Level Pricing | 2 CSE"] =
    pivotColumns ["Retail | Level Pricing | Level Pricing | 2 CSE",
      "OP | Deal Pricing | Level Pricing | 1 CSE"] :=
  pivot_columns_deterministic.1 _ _ (List.Perm.swap _ _ [])

/-! ## Per-brand pivot fallback (C6) -/

/-- C6.  Every brand contributes exactly one sheet to the report, and a
brand with fewer than four resolvable pivot-dimension columns, or whose
reshape raised, gets the flat per-row fallback sheet — its failure is
absorbed inside the loop body and the remaining brands are still
processed. -/
theorem brand_pivot_fallback_isolated (bs : List (DTable × ReshapeOutcome)) :
    (process_brands bs).length = bs.length ∧
    (∀ p ∈ bs,
      ((pivot_dimension_cols.filter (fun c => decide (c ∈ p.1.cols))).length < 4 ∨
        (∃ e, p.2 = ReshapeOutcome.raised e)) →
      brand_sheet p.1 p.2 = flat_fallback p.1 ∧
      brand_sheet p.1 p.2 ∈ process_brands bs) := by
  constructor
  · exact List.length_map _ _
  · intro p hp hcond
    refine ⟨?_, List.mem_map.mpr ⟨p, hp, rfl⟩⟩
    unfold brand_sheet
    rcases hcond with hlt | ⟨e, he⟩
    · rw [if_neg (by omega)]
    · by_cases h4 : (pivot_dimension_cols.filter
          (fun c => decide (c ∈ p.1.cols))).length = 4
      · rw [if_pos h4, he]
      · rw [if_neg h4]

/-- Witness for C6: a brand frame exposing only the `Channel` dimension and
a raised reshape falls back to the flat sheet and still appears in the
output. -/
theorem brand_pivot_fallback_isolated_witness :
    brand_sheet ⟨["Channel"], []⟩ (ReshapeOutcome.raised "boom") =
      flat_fallback ⟨["Channel"], []⟩ ∧
    brand_sheet ⟨["Channel"], []⟩ (ReshapeOutcome.raised "boom") ∈
      process_brands [(⟨["Channel"], []⟩, ReshapeOutcome.raised "boom")] :=
  (brand_pivot_fallback_isolated
    [(⟨["Channel"], []⟩, ReshapeOutcome.raised "boom")]).2
    _ (List.mem_cons_self _ _) (Or.inl (by decide))

/-! ## Chain-pricing failure isolation (C10) -/

/-- C10.  If the chain-pricing section raises, `process_data` substitutes
the empty table with the fixed 14-column schema, the `"Chain Pricing"`
sheet is still produced, and the outcome of the rest of the pipeline is
exactly what it would have been had the chain section succeeded — the chain
failure is never surfaced to the caller. -/
theorem chain_failure_isolated :
    (∀ (e : String) (core : POutcome),
      process_with_chain (ChainOutcome.raised e) core = (core, some empty_chain_table)) ∧
    empty_chain_table.cols =
      ["Vendor Id", "Price Group", "Price Group Description", "Chain Name",
       "Start Date", "End Date", "List Price", "Net Price", "Bottle Price",
       "Chargeback", "Negotiated Cost", "Avg Cost", "GP2 - Negotiated Cost",
       "GP2 - Avg Cost"] ∧
    (∀ (e : String) (t : DTable) (core : POutcome),
      (process_with_chain (ChainOutcome.raised e) core).1 =
        (process_with_chain (ChainOutcome.ok t) core).1) :=
  ⟨fun _ _ => rfl, rfl, fun _ _ _ => rfl⟩

/-! ## Supplier/vendor code normalization (C8) -/

/-- Counterexample to C8 as stated: `"3.0.0"` is a non-numeric value, yet
normalizing it does not yield `"000000"` — the digit guard passes (dots are
stripped before `isdigit`) and `float("3.0.0")` raises `ValueError`. -/
theorem normalize_supplier_raises_counterexample :
    normalizeSupplier (Cell.str "3.0.0") =
      Except.error "ValueError: could not convert string to float" := by
  rfl

/-- C8 (amended).  Supplier normalization coerces to numeric and zero-pads
to six digits: `"300001.0"` yields `"300001"`, NaN and any value failing the
digit guard yield `"000000"`, and rows are kept by the vendor filter exactly
when the normalized code equals the requested vendor identifier; however, a
value that passes the digit guard with more than one decimal point (e.g.
`"3.0.0"`) raises `ValueError` instead of defaulting to zero. -/
theorem normalize_supplier_spec :
    normalizeSupplier (Cell.str "300001.0") = Except.ok "300001" ∧
    (∀ s : String, supplierDigitCheck s = false →
      normalizeSupplier (Cell.str s) = Except.ok "000000") ∧
    normalizeSupplier Cell.na = Except.ok "000000" ∧
    (∀ (t : DTable) (v : String) (r : Row),
      r ∈ vendorRows t v ↔
        r ∈ normalizedRows t ∧ rowGet r "Supplier" = some (Cell.str v)) := by
  refine ⟨by rfl, ?_, by rfl, ?_⟩
  · intro s h
    show (if supplierDigitCheck (cellToStr (Cell.str s)) = true then _ else _) = _
    rw [show cellToStr (Cell.str s) = s from rfl, h]
    simp only [Bool.false_eq_true, if_false]
    rfl
  · intro t v r
    unfold vendorRows
    rw [List.mem_filter]
    simp only [decide_eq_true_eq]

/-- Witness for C8: the guard fails on `"abc"`, which therefore normalizes
to `"000000"`. -/
theorem normalize_supplier_spec_witness :
    normalizeSupplier (Cell.str "abc") = Except.ok "000000" :=
  normalize_supplier_spec.2.1 "abc" (by decide)

/-! ## The `process_data` core: stage lemmas for C7 and C9 -/

theorem mem_mergeTables_cols_left {PB ZPUR : DTable} {zs : List String}
    {c : String} (hc : c ∈ PB.cols) (h1 : c ≠ "Material") (h2 : c ∉ zs) :
    c ∈ (mergeTables PB ZPUR zs).cols := by
  unfold mergeTables
  simp only
  apply List.mem_append_left
  refine List.mem_map.mpr ⟨c, hc, ?_⟩
  rw [if_neg ?_]
  intro hmem
  rcases List.mem_cons.mp hmem with h | h
  · exact h1 h
  · exact h2 h

theorem mem_mergeTables_cols_right {PB ZPUR : DTable} {zs : List String}
    {c : String} (hz : c ∈ zs) (hpb : c ∉ PB.cols) :
    c ∈ (mergeTables PB ZPUR zs).cols := by
  unfold mergeTables
  simp only
  apply List.mem_append_right
  exact List.mem_map.mpr ⟨c, List.mem_cons_of_mem _ hz, if_neg hpb⟩

theorem mem_merged_table_left {PB ZPUR : DTable} {c : String}
    (hc : c ∈ PB.cols) (h1 : c ≠ "Material") (h2 : c ∉ cols_to_merge) :
    c ∈ (merged_table PB ZPUR).cols := by
  unfold merged_table dropColumns
  simp only
  refine List.mem_filter.mpr ⟨?_, by simp [h1]⟩
  exact mem_mergeTables_cols_left hc h1
    (fun hzs => h2 (List.mem_of_mem_filter hzs))

theorem mem_merged_table_right {PB ZPUR : DTable} {c : String}
    (hc : c ∈ ZPUR.cols) (hcm : c ∈ cols_to_merge) (hpb : c ∉ PB.cols)
    (h1 : c ≠ "Material") :
    c ∈ (merged_table PB ZPUR).cols := by
  unfold merged_table dropColumns
  simp only
  refine List.mem_filter.mpr ⟨?_, by simp [h1]⟩
  exact mem_mergeTables_cols_right (List.mem_filter.mpr ⟨hcm, by simpa⟩) hpb

theorem stage_merge_ok {PB ZPUR : DTable}
    (h1 : "SAP Product ID" ∈ PB.cols) (h2 : "Material" ∉ PB.cols)
    (h3 : "Material" ∈ ZPUR.cols) (hz : zsel ZPUR ≠ []) :
    stage_merge PB ZPUR = Except.ok (merged_table PB ZPUR) := by
  unfold stage_merge
  rw [if_neg (by simpa [List.isEmpty_iff] using hz)]
  rw [if_neg (by simpa using h1)]
  rw [if_neg (by simpa using h3)]
  rw [if_pos]
  exact List.mem_append_right _
    (List.mem_map.mpr ⟨"Material", List.mem_cons_self _ _, if_neg h2⟩)

theorem normalizeRow_eq_ok {r : Row} (h : normOk (rowCell r "Supplier") = true) :
    normalizeRow r = Except.ok (normalizeRowOk r) := by
  unfold normalizeRow normalizeRowOk normValue
  unfold normOk at h
  cases hn : normalizeSupplier (rowCell r "Supplier") with
  | ok v => rfl
  | error e => rw [hn] at h; simp at h

theorem mapM_normalizeRow_ok :
    ∀ rows : List Row, (∀ r ∈ rows, normOk (rowCell r "Supplier") = true) →
      rows.mapM normalizeRow = Except.ok (rows.map normalizeRowOk) := by
  intro rows h
  induction rows with
  | nil => rfl
  | cons r rs ih =>
      rw [List.mapM_cons, List.map_cons]
      rw [normalizeRow_eq_ok (h r (List.mem_cons_self r rs)),
        ih (fun x hx => h x (List.mem_cons_of_mem r hx))]
      rfl

theorem stage_vendor_empty {t : DTable} {v : String}
    (hsup : "Supplier" ∈ t.cols)
    (hnorm : ∀ r ∈ t.rows, normOk (rowCell r "Supplier") = true)
    (he : vendorRows t v = []) :
    stage_vendor t v =
      Except.error (PErr.valErr ("Vendor ID " ++ v ++ " not found.")) := by
  unfold vendorRows normalizedRows at he
  unfold stage_vendor
  rw [if_neg (by simpa using hsup), mapM_normalizeRow_ok t.rows hnorm]
  simp only [he]
  rfl

theorem stage_vendor_nonempty {t : DTable} {v : String}
    (hsup : "Supplier" ∈ t.cols)
    (hnorm : ∀ r ∈ t.rows, normOk (rowCell r "Supplier") = true)
    (he : vendorRows t v ≠ []) :
    stage_vendor t v = Except.ok ⟨t.cols, vendorRows t v⟩ := by
  unfold vendorRows normalizedRows at he ⊢
  unfold stage_vendor
  rw [if_neg (by simpa using hsup), mapM_normalizeRow_ok t.rows hnorm]
  simp only [List.isEmpty_iff, he]
  rfl

theorem stage_weighted_ok {t : DTable} (h : "Avg Cost" ∈ t.cols) :
    ∃ u, stage_weighted t = Except.ok u ∧ u.cols = t.cols := by
  unfold stage_weighted
  by_cases hc : "Cases OH" ∈ t.cols ∧ "Avg Cost" ∈ t.cols
  · rw [if_pos hc]
    exact ⟨_, rfl, rfl⟩
  · rw [if_neg hc, if_pos h]
    exact ⟨_, rfl, rfl⟩

theorem stage_weighted_no_valerr (t : DTable) (m : String) :
    stage_weighted t ≠ Except.error (PErr.valErr m) := by
  unfold stage_weighted
  split_ifs <;> simp

theorem tableFilter_cols (t : DTable) (p : Row → Bool) :
    (tableFilter t p).cols = t.cols := rfl

theorem mapColumn_cols (t : DTable) (c : String) (f : Cell → Cell) :
    (mapColumn t c f).cols = t.cols := rfl

theorem stage_pw_ok {t : DTable}
    (hPG : "Price Group" ∈ t.cols) (hPT : "Pricing Type" ∈ t.cols)
    (hTC : "Trade Channel ID" ∈ t.cols) (hPQ : "Purchase Quantity" ∈ t.cols)
    (hMA : "Mov Avg 7210" ∈ t.cols)
    (hPGD : "Price Group Description" ∈ t.cols) :
    ∃ u, stage_pw t = Except.ok u := by
  have hdPG : "Price Group" ∈ (dropColumns t cols_to_drop_PW).cols :=
    List.mem_filter.mpr ⟨hPG, by decide⟩
  have hdPT : "Pricing Type" ∈ (dropColumns t cols_to_drop_PW).cols :=
    List.mem_filter.mpr ⟨hPT, by decide⟩
  have hdTC : "Trade Channel ID" ∈ (dropColumns t cols_to_drop_PW).cols :=
    List.mem_filter.mpr ⟨hTC, by decide⟩
  have hdPQ : "Purchase Quantity" ∈ (dropColumns t cols_to_drop_PW).cols :=
    List.mem_filter.mpr ⟨hPQ, by decide⟩
  have hdMA : "Mov Avg 7210" ∈ (dropColumns t cols_to_drop_PW).cols :=
    List.mem_filter.mpr ⟨hMA, by decide⟩
  have hdPGD : "Price Group Description" ∈ (dropColumns t cols_to_drop_PW).cols :=
    List.mem_filter.mpr ⟨hPGD, by decide⟩
  simp only [stage_pw]
  rw [if_neg (by simpa using hdPG)]
  rw [if_neg (by simpa [tableFilter_cols] using hdPT)]
  rw [if_neg (by simpa [tableFilter_cols] using hdTC)]
  rw [if_neg (by simpa [tableFilter_cols] using hdPQ)]
  have hAC : "Avg Cost" ∈ (mapColumn (renameTable
      (tableFilter (tableFilter (tableFilter (tableFilter
        (dropColumns t cols_to_drop_PW) pgKeep) ptKeep) tcKeep) pqKeep)
      pw_renames) "Channel" channelClean).cols := by
    rw [mapColumn_cols]
    exact List.mem_map.mpr ⟨"Mov Avg 7210", hdMA, by decide⟩
  obtain ⟨u, hu, hucols⟩ := stage_weighted_ok hAC
  rw [hu]
  have hPGD2 : "Price Group Description" ∈ u.cols := by
    rw [hucols, mapColumn_cols]
    exact List.mem_map.mpr ⟨"Price Group Description", hdPGD, by decide⟩
  simp only [List.isEmpty_iff]
  rw [if_neg (by simpa using hPGD2)]
  exact ⟨_, rfl⟩

theorem stage_pw_no_valerr (t : DTable) (m : String) :
    stage_pw t ≠ Except.error (PErr.valErr m) := by
  intro h
  simp only [stage_pw] at h
  split_ifs at h <;> try simp at h
  cases hw : stage_weighted (mapColumn (renameTable
      (tableFilter (tableFilter (tableFilter (tableFilter
        (dropColumns t cols_to_drop_PW) pgKeep) ptKeep) tcKeep) pqKeep)
      pw_renames) "Channel" channelClean) with
  | ok u =>
      rw [hw] at h
      have h2 : (if "Price Group Description" ∈ u.cols then
            Except.ok (improved_deduplication (tableFilter u comboKeep))
          else (Except.error (PErr.exn "KeyError: Price Group Description") :
            Except PErr DTable)) = Except.error (PErr.valErr m) := h
      split_ifs at h2
      simp at h2
  | error e =>
      rw [hw] at h
      cases e with
      | valErr mm =>
          exact stage_weighted_no_valerr _ mm hw
      | exn ee =>
          have h2 : (Except.error (PErr.exn ee) : Except PErr DTable) =
            Except.error (PErr.valErr m) := h
          simp at h2

theorem string_data_append (a b : String) : (a ++ b).data = a.data ++ b.data := by
  cases a
  cases b
  rfl

theorem notFound_ne_noMatch (v : String) :
    ("Vendor ID " ++ v ++ " not found.") ≠
      "No matching columns found for merging data." := by
  intro h
  have h2 := congrArg String.data h
  rw [string_data_append, string_data_append, List.append_assoc] at h2
  have h3 := congrArg List.head? h2
  have h4 : (some 'V' : Option Char) = some 'N' := h3
  exact absurd h4 (by decide)

/-! ## Error discipline of the core (C7) -/

/-- Counterexample to C7 as stated: on a price book whose columns do not
include `Price Group`, `process_data` raises `KeyError` out of
`PW.dropna(subset=["Price Group"])` — its only top-level handler is a
`finally:` clause, so the exception crosses into the web layer instead of
being value-returned. -/
theorem process_core_raises_counterexample :
    process_core PBmissing ZPURmini "300001" =
      POutcome.raised "KeyError: Price Group" := by
  rfl

/-- C7 (amended).  `process_data` value-returns every error it checks for —
each detected failure yields `(None, message)` and the success path yields
`(filename, None)` — but exceptions from undetected conditions (a missing
expected column, an unnormalizable supplier code) propagate to the caller.
Under `required_input_ok` (the expected columns present and every supplier
cell normalizable) no exception escapes: the outcome is a filename or a
value-returned message. -/
theorem process_core_value_returns (PB ZPUR : DTable) (v : String)
    (h : required_input_ok PB ZPUR) :
    (∃ f, process_core PB ZPUR v = POutcome.ok f) ∨
    (∃ m, process_core PB ZPUR v = POutcome.err m) := by
  obtain ⟨h1, h2, h3, hPG, hPT, hTC, hPQ, hMA, hMA2, hPGD, hPGD2, hnorm⟩ := h
  have hz : zsel ZPUR ≠ [] := by
    intro he
    have hm : "Mov Avg 7210" ∈ zsel ZPUR :=
      List.mem_filter.mpr ⟨by decide, by simpa⟩
    rw [he] at hm
    simp at hm
  by_cases hsup : "Supplier" ∈ (merged_table PB ZPUR).cols
  · by_cases he : vendorRows (merged_table PB ZPUR) v = []
    · refine Or.inr ⟨"Vendor ID " ++ v ++ " not found.", ?_⟩
      simp only [process_core, stage_merge_ok h1 h2 h3 hz,
        stage_vendor_empty hsup hnorm he]
      rfl
    · have hpw := stage_pw_ok
        (t := ⟨(merged_table PB ZPUR).cols, vendorRows (merged_table PB ZPUR) v⟩)
        (mem_merged_table_left hPG (by decide) (by decide))
        (mem_merged_table_left hPT (by decide) (by decide))
        (mem_merged_table_left hTC (by decide) (by decide))
        (mem_merged_table_left hPQ (by decide) (by decide))
        (mem_merged_table_right hMA (by decide) hMA2 (by decide))
        (mem_merged_table_right hPGD (by decide) hPGD2 (by decide))
      obtain ⟨u, hu⟩ := hpw
      refine Or.inl ⟨"PW_" ++ v ++ "_" ++ sanitizeName (vendor_name
        ⟨(merged_table PB ZPUR).cols, vendorRows (merged_table PB ZPUR) v⟩ v), ?_⟩
      simp only [process_core, stage_merge_ok h1 h2 h3 hz,
        stage_vendor_nonempty hsup hnorm he, hu]
  · have hsv : stage_vendor (merged_table PB ZPUR) v =
        Except.error (PErr.valErr "Supplier column missing in merged data.") := by
      unfold stage_vendor
      rw [if_pos (by simpa using hsup)]
    refine Or.inr ⟨"Supplier column missing in merged data.", ?_⟩
    simp only [process_core, stage_merge_ok h1 h2 h3 hz, hsv]
    rfl

/-- Witness for C7 (amended): the single-row catalogs `PBfull`/`ZPURfull`
satisfy `required_input_ok`, and the pipeline value-returns on them. -/
theorem process_core_value_returns_witness :
    required_input_ok PBfull ZPURfull ∧
    ((∃ f, process_core PBfull ZPURfull "300001" = POutcome.ok f) ∨
     (∃ m, process_core PBfull ZPURfull "300001" = POutcome.err m)) :=
  ⟨by decide, process_core_value_returns PBfull ZPURfull "300001" (by decide)⟩

/-! ## Not-found errors of the merge step (C9) -/

/-- C9.  Under `merge_keys_ok`, the merge step fails with a not-found error
exactly when the merge allow-list has no column present in the cost catalog
(`"No matching columns found for merging data."`) or when zero rows match
the requested vendor after filtering (`"Vendor ID <v> not found."`); each
condition produces exactly its named value-returned error, and in both
cases no output file results (the outcome is not `ok`). -/
theorem merge_not_found_errors (PB ZPUR : DTable) (v : String)
    (h : merge_keys_ok PB ZPUR) :
    (process_core PB ZPUR v =
        POutcome.err "No matching columns found for merging data." ↔
      zsel ZPUR = []) ∧
    (process_core PB ZPUR v =
        POutcome.err ("Vendor ID " ++ v ++ " not found.") ↔
      zsel ZPUR ≠ [] ∧ vendorRows (merged_table PB ZPUR) v = []) := by
  obtain ⟨h1, h2, h3, hsup, hnorm⟩ := h
  by_cases hz : zsel ZPUR = []
  · have hpc : process_core PB ZPUR v =
        POutcome.err "No matching columns found for merging data." := by
      unfold process_core stage_merge
      rw [if_pos (by simpa [List.isEmpty_iff] using hz)]
      rfl
    refine ⟨⟨fun _ => hz, fun _ => hpc⟩, ⟨fun hh => ?_, fun hh => absurd hz hh.1⟩⟩
    rw [hpc] at hh
    exact absurd (POutcome.err.inj hh).symm (notFound_ne_noMatch v)
  · have hm := stage_merge_ok h1 h2 h3 hz
    by_cases he : vendorRows (merged_table PB ZPUR) v = []
    · have hpc : process_core PB ZPUR v =
          POutcome.err ("Vendor ID " ++ v ++ " not found.") := by
        simp only [process_core, hm, stage_vendor_empty hsup hnorm he]
        rfl
      refine ⟨⟨fun hh => ?_, fun hz2 => absurd hz2 hz⟩,
        ⟨fun _ => ⟨hz, he⟩, fun _ => hpc⟩⟩
      rw [hpc] at hh
      exact absurd (POutcome.err.inj hh) (notFound_ne_noMatch v)
    · have hne : ∀ m, process_core PB ZPUR v ≠ POutcome.err m := by
        intro m hh
        simp only [process_core, hm, stage_vendor_nonempty hsup hnorm he] at hh
        cases hsp : stage_pw ⟨(merged_table PB ZPUR).cols,
            vendorRows (merged_table PB ZPUR) v⟩ with
        | ok u => rw [hsp] at hh; simp at hh
        | error e =>
            rw [hsp] at hh
            cases e with
            | valErr mm => exact stage_pw_no_valerr _ mm hsp
            | exn ee =>
                have h4 : POutcome.raised ee = POutcome.err m := hh
                simp at h4
      exact ⟨⟨fun hh => absurd hh (hne _), fun hz2 => absurd hz2 hz⟩,
        ⟨fun hh => absurd hh (hne _), fun hh => absurd hh.2 he⟩⟩

/-- Witness for C9: with the minimal catalogs and a vendor id matching no
row, the pipeline value-returns the not-found error naming that vendor. -/
theorem merge_not_found_errors_witness :
    process_core PBmissing ZPURmini "999999" =
      POutcome.err ("Vendor ID " ++ "999999" ++ " not found.") :=
  (merge_not_found_errors PBmissing ZPURmini "999999" (by decide)).2.mpr
    ⟨by decide, by decide⟩
